import Mathlib

/-!
Verification development for the RDP accountant in
`system/flcore/optimizer/utils/RDP/compute_rdp.py` (ALI-DPFL).

Python floats are modelled as real numbers (`ℝ`), with IEEE infinities
modelled via `EReal` (`⊥` for `-inf`, `⊤` for `+inf`).  Python operations
that can raise (`/` by zero, `0.0 ** negative`, `math.log` of a
non-positive number, the explicit `ValueError` of `_log_sub`) are modelled
as `Except String`.  The unbounded `while True` loop of
`_compute_log_a_for_frac_alpha` is modelled with explicit fuel (`Option`
wrapping, `none` meaning the fuel ran out before the convergence
criterion was reached).
-/

set_option maxHeartbeats 1000000

/-- Python float division `x / d`: raises `ZeroDivisionError` when `d == 0`. -/
noncomputable def pydiv (x d : ℝ) : Except String ℝ :=
  if d = 0 then .error "ZeroDivisionError" else .ok (x / d)

/-- Python division of a possibly-infinite float by a finite float. -/
noncomputable def pydivE (x : EReal) (d : ℝ) : Except String EReal :=
  if d = 0 then .error "ZeroDivisionError" else .ok (x * ((d⁻¹ : ℝ) : EReal))

/-- Python float power `x ** e` (real exponent): raises `ZeroDivisionError`
when a zero base is raised to a negative power; otherwise `Real.rpow`. -/
noncomputable def pypow (x e : ℝ) : Except String ℝ :=
  if x = 0 ∧ e < 0 then .error "ZeroDivisionError" else .ok (x ^ e)

/-- Python `math.log`: raises a domain error on non-positive input. -/
noncomputable def pylog (x : ℝ) : Except String ℝ :=
  if x ≤ 0 then .error "math domain error" else .ok (Real.log x)

/-- `math.expm1`, modelled exactly: `exp x - 1`. -/
noncomputable def expm1 (x : ℝ) : ℝ :=
  Real.exp x - 1

/-- `_log_add(logx, logy)` from the source: reorder to `a = min`, `b = max`;
return `b` when `a == -inf`, else `log1p(exp(a - b)) + b`. -/
noncomputable def log_add (logx logy : EReal) : EReal :=
  let a := min logx logy
  let b := max logx logy
  if a = ⊥ then b
  else ((Real.log (1 + Real.exp (a.toReal - b.toReal)) : ℝ) : EReal) + b

/-- `_log_sub(logx, logy)` from the source: `ValueError` when `logx < logy`;
`logx` when `logy == -inf`; `-inf` when `logx == logy`; otherwise
`log(expm1(logx - logy)) + logy`.  (The `OverflowError` fallback of the
source is unreachable in the real-number model, where no finite
expression overflows.) -/
noncomputable def log_sub (logx logy : EReal) : Except String EReal :=
  if logx < logy then .error "The result of subtraction must be non-negative."
  else if logy = ⊥ then .ok logx
  else if logx = logy then .ok ⊥
  else .ok (((Real.log (expm1 (logx.toReal - logy.toReal)) : ℝ) : EReal) + logy)

/-- The standard normal cumulative distribution function, the semantics of
`scipy.special.ndtr`. -/
noncomputable def ndtr (x : ℝ) : ℝ :=
  ∫ t in Set.Iic x, Real.exp (-t ^ 2 / 2) / Real.sqrt (2 * Real.pi)

/-- `scipy.special.log_ndtr`: the log of the standard normal CDF. -/
noncomputable def log_ndtr (x : ℝ) : ℝ :=
  Real.log (ndtr x)

/-- `_log_erfc(x)` from the source: `log(2) + log_ndtr(-x * 2 ** 0.5)`. -/
noncomputable def log_erfc (x : ℝ) : ℝ :=
  Real.log 2 + log_ndtr (-x * Real.sqrt 2)

/-- `scipy.special.binom(a, i)` for a real upper argument and a natural
lower argument: the generalized binomial coefficient
`(a * (a-1) * ... * (a-i+1)) / i!`. -/
noncomputable def genBinom (a : ℝ) (i : ℕ) : ℝ :=
  (Finset.range i).prod (fun k => a - k) / (Nat.factorial i)

/-- The summand `log_b` of `_compute_log_a_for_int_alpha`:
`log(binom(alpha, i)) + i*log(q) + (alpha-i)*log(1-q) + (i*i-i)/(2*sigma^2)`. -/
noncomputable def int_log_b (q sigma : ℝ) (alpha : ℤ) (i : ℕ) : ℝ :=
  Real.log (genBinom (alpha : ℝ) i) + (i : ℝ) * Real.log q
    + ((alpha : ℝ) - (i : ℝ)) * Real.log (1 - q)
    + ((i : ℝ) * i - i) / (2 * sigma ^ 2)

/-- `_compute_log_a_for_int_alpha(q, sigma, alpha)` from the source: the
log-sum over `i in range(alpha + 1)` of `int_log_b` terms, accumulated
with the inlined log-add (`rdp` starts at `-inf`), then divided by
`alpha - 1`. -/
noncomputable def _compute_log_a_for_int_alpha (q sigma : ℝ) (alpha : ℤ) : Except String EReal :=
  pydivE
    ((List.range (alpha + 1).toNat).foldl
      (fun rdp i =>
        let log_b : EReal := ((int_log_b q sigma alpha i : ℝ) : EReal)
        let a := min rdp log_b
        let b := max rdp log_b
        if a = ⊥ then b
        else ((Real.log (Real.exp (a.toReal - b.toReal) + 1) : ℝ) : EReal) + b)
      ⊥)
    ((alpha : ℝ) - 1)

/-- The integral split point of the fractional-order path:
`z0 = sigma^2 * log(1/q - 1) + 0.5`. -/
noncomputable def frac_z0 (q sigma : ℝ) : ℝ :=
  sigma ^ 2 * Real.log (1 / q - 1) + 0.5

/-- The series term `log_s0` of `_compute_log_a_for_frac_alpha` at index `i`:
`log_t0 + (i*i - i)/(2*sigma^2) + log_e0`. -/
noncomputable def log_s0 (q sigma alpha : ℝ) (i : ℕ) : ℝ :=
  (Real.log |genBinom alpha i| + (i : ℝ) * Real.log q + (alpha - i) * Real.log (1 - q))
    + ((i : ℝ) * i - i) / (2 * sigma ^ 2)
    + (Real.log 0.5 + log_erfc (((i : ℝ) - frac_z0 q sigma) / (Real.sqrt 2 * sigma)))

/-- The series term `log_s1` of `_compute_log_a_for_frac_alpha` at index `i`
(with `j = alpha - i`): `log_t1 + (j*j - j)/(2*sigma^2) + log_e1`. -/
noncomputable def log_s1 (q sigma alpha : ℝ) (i : ℕ) : ℝ :=
  (Real.log |genBinom alpha i| + (alpha - i) * Real.log q + (i : ℝ) * Real.log (1 - q))
    + ((alpha - i) * (alpha - i) - (alpha - i)) / (2 * sigma ^ 2)
    + (Real.log 0.5 + log_erfc ((frac_z0 q sigma - (alpha - i)) / (Real.sqrt 2 * sigma)))

/-- One iteration of the `while True` loop body of
`_compute_log_a_for_frac_alpha`, abstracted over the coefficient sequence
`coef` and the two term sequences `s0`, `s1`: when `coef i > 0` both
accumulators are updated with `log_add`, otherwise with `log_sub`
(first `log_a0`, then `log_a1`, an error propagating immediately). -/
noncomputable def fracBody (coef s0 s1 : ℕ → ℝ) (i : ℕ) (acc : EReal × EReal) :
    Except String (EReal × EReal) :=
  if 0 < coef i then
    .ok (log_add acc.1 ((s0 i : ℝ) : EReal), log_add acc.2 ((s1 i : ℝ) : EReal))
  else
    match log_sub acc.1 ((s0 i : ℝ) : EReal) with
    | .error e => .error e
    | .ok a0 =>
      match log_sub acc.2 ((s1 i : ℝ) : EReal) with
      | .error e => .error e
      | .ok a1 => .ok (a0, a1)

/-- The `while True ... break` loop of `_compute_log_a_for_frac_alpha`,
with explicit fuel: starting at index `i` with accumulators `acc`, run the
body, then exit exactly when `max (s0 i) (s1 i) < -30` (the criterion is
checked only after accumulating).  `none` means the fuel ran out. -/
noncomputable def fracIter (coef s0 s1 : ℕ → ℝ) :
    ℕ → ℕ → EReal × EReal → Option (Except String (EReal × EReal))
  | 0, _, _ => none
  | fuel + 1, i, acc =>
    match fracBody coef s0 s1 i acc with
    | .error e => some (.error e)
    | .ok acc2 =>
      if max (s0 i) (s1 i) < -30 then some (.ok acc2)
      else fracIter coef s0 s1 fuel (i + 1) acc2

/-- Reference evaluation of the loop: accumulate the terms at indices
`i, i+1, ..., i+k` (exactly `k+1` body applications), errors
short-circuiting. -/
noncomputable def fracSeg (coef s0 s1 : ℕ → ℝ) :
    ℕ → ℕ → EReal × EReal → Except String (EReal × EReal)
  | i, 0, acc => fracBody coef s0 s1 i acc
  | i, k + 1, acc =>
    match fracBody coef s0 s1 i acc with
    | .error e => .error e
    | .ok acc2 => fracSeg coef s0 s1 (i + 1) k acc2

/-- `_compute_log_a_for_frac_alpha(q, sigma, alpha)` from the source: run
the loop from index 0 with both accumulators at `-inf`, using the series
terms `log_s0`/`log_s1` and coefficients `binom(alpha, i)`, and divide the
final `log_add(log_a0, log_a1)` by `alpha - 1`. -/
noncomputable def _compute_log_a_for_frac_alpha (fuel : ℕ) (q sigma alpha : ℝ) :
    Option (Except String EReal) :=
  (fracIter (fun i => genBinom alpha i) (log_s0 q sigma alpha) (log_s1 q sigma alpha)
      fuel 0 (⊥, ⊥)).map
    (fun r => r.bind (fun acc => pydivE (log_add acc.1 acc.2) (alpha - 1)))

open Classical in
/-- `_compute_rdp(q, sigma, alpha)` from the source, for one order.  The
order may be `+inf` (`⊤`) or `-inf` (`⊥`), matching `np.isinf`.  Branches
in source order: `q == 0`, then `sigma == 0`, then `q == 1`, then
`np.isinf(alpha)`, then integer/fractional dispatch. -/
noncomputable def _compute_rdp (fuel : ℕ) (q sigma : ℝ) (alpha : EReal) :
    Option (Except String EReal) :=
  if q = 0 then some (.ok 0)
  else if sigma = 0 then some (.ok ⊤)
  else if q = 1 then some (pydivE alpha (2 * sigma ^ 2))
  else if alpha = ⊤ ∨ alpha = ⊥ then some (.ok ⊤)
  else if ∃ n : ℤ, alpha = ((n : ℝ) : EReal) then
    some (_compute_log_a_for_int_alpha q sigma ⌊alpha.toReal⌋)
  else _compute_log_a_for_frac_alpha fuel q sigma alpha.toReal

/-- `compute_rdp(q, noise_multiplier, steps, orders)` for a scalar order:
the per-order RDP multiplied by `steps`. -/
noncomputable def compute_rdp (fuel : ℕ) (q sigma : ℝ) (steps : ℕ) (alpha : EReal) :
    Option (Except String EReal) :=
  (_compute_rdp fuel q sigma alpha).map (Except.map (fun r => r * (((steps : ℝ)) : EReal)))

/-- `compute_rdp` on a sequence of orders: per-order computation, the
output sequence mirroring the input order sequence. -/
noncomputable def compute_rdp_vec (fuel : ℕ) (q sigma : ℝ) (steps : ℕ)
    (orders : List EReal) : List (Option (Except String EReal)) :=
  orders.map (fun alpha => compute_rdp fuel q sigma steps alpha)

/-- `_compute_rdp_randomized_response(p, alpha)` from the source:
`log(p^alpha * (1-p)^(1-alpha) + (1-p)^alpha * p^(1-alpha)) / (alpha - 1)`,
with Python evaluation order (item1, then item2, then log, then the
division). -/
noncomputable def _compute_rdp_randomized_response (p alpha : ℝ) : Except String ℝ :=
  (pypow p alpha).bind fun t1 =>
  (pypow (1 - p) (1 - alpha)).bind fun t2 =>
  (pypow (1 - p) alpha).bind fun t3 =>
  (pypow p (1 - alpha)).bind fun t4 =>
  (pylog (t1 * t2 + t3 * t4)).bind fun l =>
  pydiv l (alpha - 1)

/-- `compute_rdp_randomized_response(p, steps, orders, q)` for a scalar
order: `q * rdp * steps`. -/
noncomputable def compute_rdp_randomized_response (p : ℝ) (steps : ℕ) (alpha q : ℝ) :
    Except String ℝ :=
  (_compute_rdp_randomized_response p alpha).map (fun rdp => q * rdp * (steps : ℝ))

/-- `compute_rdp_randomized_response` on a sequence of orders. -/
noncomputable def compute_rdp_randomized_response_vec (p : ℝ) (steps : ℕ)
    (orders : List ℝ) (q : ℝ) : List (Except String ℝ) :=
  orders.map (fun alpha => compute_rdp_randomized_response p steps alpha q)

/-- The real coercion into `EReal` commutes with `min`. -/
theorem ereal_min_coe (x y : ℝ) : min ((x : ℝ) : EReal) ((y : ℝ) : EReal) = ((min x y : ℝ) : EReal) := by
  rcases le_total x y with h | h
  · rw [min_eq_left (EReal.coe_le_coe_iff.mpr h), min_eq_left h]
  · rw [min_eq_right (EReal.coe_le_coe_iff.mpr h), min_eq_right h]

/-- The real coercion into `EReal` commutes with `max`. -/
theorem ereal_max_coe (x y : ℝ) : max ((x : ℝ) : EReal) ((y : ℝ) : EReal) = ((max x y : ℝ) : EReal) := by
  rcases le_total x y with h | h
  · rw [max_eq_right (EReal.coe_le_coe_iff.mpr h), max_eq_right h]
  · rw [max_eq_left (EReal.coe_le_coe_iff.mpr h), max_eq_left h]

/-- The overflow-free log-add identity over the reals. -/
theorem log_add_real_eq (x y : ℝ) :
    Real.log (1 + Real.exp (min x y - max x y)) + max x y
      = Real.log (Real.exp x + Real.exp y) := by
  have h1 : (0 : ℝ) < 1 + Real.exp (min x y - max x y) := by positivity
  have key : (1 + Real.exp (min x y - max x y)) * Real.exp (max x y)
      = Real.exp x + Real.exp y := by
    rw [add_mul, one_mul, ← Real.exp_add]
    have h2 : min x y - max x y + max x y = min x y := by ring
    rw [h2]
    rcases le_total x y with h | h
    · rw [min_eq_left h, max_eq_right h, add_comm]
    · rw [min_eq_right h, max_eq_left h]
  calc Real.log (1 + Real.exp (min x y - max x y)) + max x y
      = Real.log (1 + Real.exp (min x y - max x y)) + Real.log (Real.exp (max x y)) := by
        rw [Real.log_exp]
    _ = Real.log ((1 + Real.exp (min x y - max x y)) * Real.exp (max x y)) :=
        (Real.log_mul (ne_of_gt h1) (Real.exp_ne_zero _)).symm
    _ = Real.log (Real.exp x + Real.exp y) := by rw [key]

/-- C7: `log_add` is commutative, treats `-infinity` as the additive
identity, and on finite inputs returns `log1p(exp(a - b)) + b` with
`a = min`, `b = max`, i.e. it computes `log(exp(logx) + exp(logy))`. -/
theorem C7_log_add_comm_identity :
    (∀ x y : EReal, log_add x y = log_add y x)
    ∧ (∀ x : EReal, log_add x ⊥ = x)
    ∧ (∀ x y : ℝ, log_add ((x : ℝ) : EReal) ((y : ℝ) : EReal)
        = ((Real.log (1 + Real.exp (min x y - max x y)) + max x y : ℝ) : EReal))
    ∧ (∀ x y : ℝ, log_add ((x : ℝ) : EReal) ((y : ℝ) : EReal)
        = ((Real.log (Real.exp x + Real.exp y) : ℝ) : EReal)) := by
  have h3 : ∀ x y : ℝ, log_add ((x : ℝ) : EReal) ((y : ℝ) : EReal)
      = ((Real.log (1 + Real.exp (min x y - max x y)) + max x y : ℝ) : EReal) := by
    intro x y
    simp only [log_add, ereal_min_coe, ereal_max_coe]
    rw [if_neg (EReal.coe_ne_bot _)]
    rw [EReal.toReal_coe, EReal.toReal_coe, ← EReal.coe_add]
  refine ⟨?_, ?_, h3, ?_⟩
  · intro x y
    simp only [log_add, min_comm, max_comm]
  · intro x
    simp only [log_add]
    rw [min_eq_right bot_le, max_eq_left bot_le, if_pos rfl]
  · intro x y
    rw [h3 x y, log_add_real_eq]

/-- C6: `log_sub` errors exactly when `logx < logy`; returns `logx` when
`logy = -infinity`; returns `-infinity` when `logx = logy`; and otherwise
returns `log(expm1(logx - logy)) + logy` (the float overflow fallback of
the source is unreachable in the real-number model). -/
theorem C6_log_sub_spec :
    (∀ x y : EReal, (∃ e, log_sub x y = .error e) ↔ x < y)
    ∧ (∀ x : EReal, log_sub x ⊥ = .ok x)
    ∧ (∀ x : EReal, log_sub x x = .ok ⊥)
    ∧ (∀ x y : ℝ, y < x → log_sub ((x : ℝ) : EReal) ((y : ℝ) : EReal)
        = .ok ((Real.log (expm1 (x - y)) + y : ℝ) : EReal)) := by
  refine ⟨?_, ?_, ?_, ?_⟩
  · intro x y
    constructor
    · rintro ⟨e, he⟩
      by_contra h
      simp only [log_sub, if_neg h] at he
      split_ifs at he
    · intro h
      exact ⟨"The result of subtraction must be non-negative.",
        by simp only [log_sub, if_pos h]⟩
  · intro x
    simp only [log_sub]
    rw [if_neg (not_lt.mpr bot_le)]
    simp
  · intro x
    simp only [log_sub]
    rw [if_neg (lt_irrefl x)]
    by_cases hx : x = ⊥
    · rw [if_pos hx, hx]
    · rw [if_neg hx]
      simp
  · intro x y h
    simp only [log_sub]
    rw [if_neg (not_lt.mpr (EReal.coe_le_coe_iff.mpr h.le)),
      if_neg (EReal.coe_ne_bot y),
      if_neg (fun hxy => absurd (EReal.coe_eq_coe_iff.mp hxy) (ne_of_gt h)),
      EReal.toReal_coe, EReal.toReal_coe, ← EReal.coe_add]

/-- Witness for C6 at the concrete input `logx = 1`, `logy = 0`. -/
theorem C6_log_sub_spec_witness :
    ((0 : ℝ) < 1)
    ∧ log_sub (((1 : ℝ) : ℝ) : EReal) (((0 : ℝ) : ℝ) : EReal)
        = .ok ((Real.log (expm1 (1 - 0)) + 0 : ℝ) : EReal) :=
  ⟨by norm_num, C6_log_sub_spec.2.2.2 1 0 (by norm_num)⟩

/-- C1: `_compute_rdp` checks its special cases in source priority order:
`q == 0` returns `0`; else `sigma == 0` returns `+inf`; else `q == 1`
returns `alpha / (2 sigma^2)` exactly (scaled by `steps` in
`compute_rdp`); else an infinite order returns `+inf`; else integer
orders go to the integer-order path and fractional orders to the
fractional-order path. -/
theorem C1_branch_priority (fuel : ℕ) (q sigma : ℝ) (steps : ℕ) (alpha : EReal) :
    (q = 0 → _compute_rdp fuel q sigma alpha = some (.ok 0))
    ∧ (q ≠ 0 → sigma = 0 → _compute_rdp fuel q sigma alpha = some (.ok ⊤))
    ∧ (q ≠ 0 → sigma ≠ 0 → q = 1 →
        _compute_rdp fuel q sigma alpha
          = some (.ok (alpha * (((2 * sigma ^ 2)⁻¹ : ℝ) : EReal)))
        ∧ compute_rdp fuel q sigma steps alpha
          = some (.ok (alpha * (((2 * sigma ^ 2)⁻¹ : ℝ) : EReal) * (((steps : ℝ)) : EReal))))
    ∧ (q ≠ 0 → sigma ≠ 0 → q ≠ 1 → alpha = ⊤ →
        _compute_rdp fuel q sigma alpha = some (.ok ⊤))
    ∧ (q ≠ 0 → sigma ≠ 0 → q ≠ 1 → alpha ≠ ⊤ → alpha ≠ ⊥ →
        (∃ n : ℤ, alpha = ((n : ℝ) : EReal)) →
        _compute_rdp fuel q sigma alpha
          = some (_compute_log_a_for_int_alpha q sigma ⌊alpha.toReal⌋))
    ∧ (q ≠ 0 → sigma ≠ 0 → q ≠ 1 → alpha ≠ ⊤ → alpha ≠ ⊥ →
        (¬ ∃ n : ℤ, alpha = ((n : ℝ) : EReal)) →
        _compute_rdp fuel q sigma alpha
          = _compute_log_a_for_frac_alpha fuel q sigma alpha.toReal) := by
  refine ⟨?_, ?_, ?_, ?_, ?_, ?_⟩
  · intro h0
    simp only [_compute_rdp, if_pos h0]
  · intro h0 hs
    simp only [_compute_rdp]
    rw [if_neg h0, if_pos hs]
  · intro h0 hs h1
    have hd : (2 * sigma ^ 2) ≠ 0 := mul_ne_zero two_ne_zero (pow_ne_zero 2 hs)
    constructor
    · simp only [_compute_rdp]
      rw [if_neg h0, if_neg hs, if_pos h1]
      simp only [pydivE, if_neg hd]
    · simp only [compute_rdp, _compute_rdp]
      rw [if_neg h0, if_neg hs, if_pos h1]
      simp only [pydivE, if_neg hd, Option.map_some', Except.map]
  · intro h0 hs h1 ht
    simp only [_compute_rdp]
    rw [if_neg h0, if_neg hs, if_neg h1, if_pos (Or.inl ht)]
  · intro h0 hs h1 ht hb hint
    simp only [_compute_rdp]
    rw [if_neg h0, if_neg hs, if_neg h1, if_neg (not_or.mpr ⟨ht, hb⟩), if_pos hint]
  · intro h0 hs h1 ht hb hfrac
    simp only [_compute_rdp]
    rw [if_neg h0, if_neg hs, if_neg h1, if_neg (not_or.mpr ⟨ht, hb⟩), if_neg hfrac]

/-- Witness for C1: each of the six branches evaluated at a concrete
input. -/
theorem C1_branch_priority_witness :
    (_compute_rdp 1 0 5 ((2 : ℝ) : EReal) = some (.ok 0))
    ∧ (((1 / 2 : ℝ) ≠ 0)
        ∧ _compute_rdp 1 (1 / 2) 0 ((2 : ℝ) : EReal) = some (.ok ⊤))
    ∧ (((1 : ℝ) ≠ 0)
        ∧ compute_rdp 1 1 1 3 ((2 : ℝ) : EReal)
          = some (.ok (((2 : ℝ) : EReal) * (((2 * (1 : ℝ) ^ 2)⁻¹ : ℝ) : EReal)
              * ((((3 : ℕ) : ℝ)) : EReal))))
    ∧ (_compute_rdp 1 (1 / 2) 1 ⊤ = some (.ok ⊤))
    ∧ ((∃ n : ℤ, ((2 : ℝ) : EReal) = ((n : ℝ) : EReal))
        ∧ _compute_rdp 1 (1 / 2) 1 ((2 : ℝ) : EReal)
          = some (_compute_log_a_for_int_alpha (1 / 2) 1 ⌊(((2 : ℝ) : EReal)).toReal⌋))
    ∧ ((¬ ∃ n : ℤ, ((3 / 2 : ℝ) : EReal) = ((n : ℝ) : EReal))
        ∧ _compute_rdp 1 (1 / 2) 1 ((3 / 2 : ℝ) : EReal)
          = _compute_log_a_for_frac_alpha 1 (1 / 2) 1 (((3 / 2 : ℝ) : EReal)).toReal) := by
  have hint : ∃ n : ℤ, ((2 : ℝ) : EReal) = ((n : ℝ) : EReal) :=
    ⟨2, by norm_num⟩
  have hfrac : ¬ ∃ n : ℤ, ((3 / 2 : ℝ) : EReal) = ((n : ℝ) : EReal) := by
    rintro ⟨n, hn⟩
    rw [EReal.coe_eq_coe_iff] at hn
    have h3 : (3 : ℝ) = 2 * (n : ℝ) := by linarith
    have h4 : (3 : ℤ) = 2 * n := by exact_mod_cast h3
    omega
  refine ⟨?_, ⟨by norm_num, ?_⟩, ⟨by norm_num, ?_⟩, ?_, ⟨hint, ?_⟩, ⟨hfrac, ?_⟩⟩
  · exact (C1_branch_priority 1 0 5 0 ((2 : ℝ) : EReal)).1 rfl
  · exact (C1_branch_priority 1 (1 / 2) 0 0 ((2 : ℝ) : EReal)).2.1 (by norm_num) rfl
  · exact ((C1_branch_priority 1 1 1 3 ((2 : ℝ) : EReal)).2.2.1
      (by norm_num) (by norm_num) rfl).2
  · exact (C1_branch_priority 1 (1 / 2) 1 0 ⊤).2.2.2.1
      (by norm_num) (by norm_num) (by norm_num) rfl
  · exact (C1_branch_priority 1 (1 / 2) 1 0 ((2 : ℝ) : EReal)).2.2.2.2.1
      (by norm_num) (by norm_num) (by norm_num) (EReal.coe_ne_top 2) (EReal.coe_ne_bot 2) hint
  · exact (C1_branch_priority 1 (1 / 2) 1 0 ((3 / 2 : ℝ) : EReal)).2.2.2.2.2
      (by norm_num) (by norm_num) (by norm_num) (EReal.coe_ne_top _) (EReal.coe_ne_bot _) hfrac

/-- C3 counterexample: at `q = 0` and `sigma = 0` the `q == 0` branch has
priority, so `compute_rdp` returns `0`, not `+infinity`, falsifying the
claim at this input. -/
theorem C3_sigma_zero_counterexample :
    compute_rdp 1 0 0 1 ((2 : ℝ) : EReal) = some (.ok 0)
    ∧ (some (Except.ok (0 : EReal)) : Option (Except String EReal)) ≠ some (.ok ⊤) := by
  constructor
  · simp only [compute_rdp, _compute_rdp, if_pos rfl]
    simp [Except.map]
  · intro h
    simp only [Option.some.injEq, Except.ok.injEq] at h
    exact EReal.zero_ne_top h

/-- C3 amended: for every nonzero sampling rate `q`, zero noise
multiplier, positive step count and arbitrary order, `compute_rdp`
returns `+infinity` (per order also on order sequences). -/
theorem C3_sigma_zero_amended (fuel : ℕ) (q : ℝ) (steps : ℕ) (alpha : EReal)
    (h0 : q ≠ 0) (hsteps : 0 < steps) :
    compute_rdp fuel q 0 steps alpha = some (.ok ⊤)
    ∧ ∀ orders : List EReal,
        compute_rdp_vec fuel q 0 steps orders = orders.map (fun _ => some (.ok ⊤)) := by
  have hsc : (0 : EReal) < ((steps : ℝ) : EReal) := by
    have h1 : (0 : ℝ) < (steps : ℝ) := by exact_mod_cast hsteps
    exact_mod_cast h1
  have hall : ∀ a : EReal, compute_rdp fuel q 0 steps a = some (.ok ⊤) := by
    intro a
    simp only [compute_rdp, _compute_rdp]
    rw [if_neg h0]
    simp only [if_true, eq_self_iff_true, ite_true, Option.map_some', Except.map]
    rw [EReal.top_mul_of_pos hsc]
  refine ⟨hall alpha, fun orders => ?_⟩
  simp only [compute_rdp_vec]
  rw [funext hall]

/-- Witness for the amended C3 at `q = 1/2`, `steps = 1`, order `2`. -/
theorem C3_sigma_zero_amended_witness :
    ((1 / 2 : ℝ) ≠ 0) ∧ (0 < 1)
    ∧ compute_rdp 1 (1 / 2) 0 1 ((2 : ℝ) : EReal) = some (.ok ⊤) :=
  ⟨by norm_num, Nat.one_pos,
    (C3_sigma_zero_amended 1 (1 / 2) 1 ((2 : ℝ) : EReal) (by norm_num) Nat.one_pos).1⟩

/-- C4: RDP composition scaling is linear in the step count, for both the
sampled-Gaussian accountant and the randomized-response accountant:
`steps = n` equals `n` times `steps = 1`, and `steps = 2n` equals twice
`steps = n`. -/
theorem C4_steps_linearity (fuel : ℕ) (q sigma : ℝ) (alpha : EReal) (n : ℕ)
    (hn : 0 < n) :
    (compute_rdp fuel q sigma n alpha
      = (compute_rdp fuel q sigma 1 alpha).map
          (Except.map (fun r => (((n : ℝ)) : EReal) * r)))
    ∧ (compute_rdp fuel q sigma (2 * n) alpha
      = (compute_rdp fuel q sigma n alpha).map
          (Except.map (fun r => (((2 : ℝ)) : EReal) * r)))
    ∧ (∀ p a qq : ℝ, compute_rdp_randomized_response p n a qq
      = (compute_rdp_randomized_response p 1 a qq).map (fun r => (n : ℝ) * r))
    ∧ (∀ p a qq : ℝ, compute_rdp_randomized_response p (2 * n) a qq
      = (compute_rdp_randomized_response p n a qq).map (fun r => 2 * r)) := by
  refine ⟨?_, ?_, ?_, ?_⟩
  · cases hx : _compute_rdp fuel q sigma alpha with
    | none => simp [compute_rdp, hx]
    | some r =>
      cases r with
      | error e => simp [compute_rdp, hx, Except.map]
      | ok v =>
        simp only [compute_rdp, hx, Option.map_some', Except.map, Option.some.injEq,
          Except.ok.injEq]
        have h1 : (((((1 : ℕ) : ℝ))) : EReal) = 1 := by norm_cast
        rw [h1, mul_one]
        exact EReal.mul_comm v _
  · cases hx : _compute_rdp fuel q sigma alpha with
    | none => simp [compute_rdp, hx]
    | some r =>
      cases r with
      | error e => simp [compute_rdp, hx, Except.map]
      | ok v =>
        simp only [compute_rdp, hx, Option.map_some', Except.map, Option.some.injEq,
          Except.ok.injEq]
        have hc : (((((2 * n : ℕ) : ℝ))) : EReal)
            = ((((2 : ℝ))) : EReal) * ((((n : ℝ))) : EReal) := by norm_cast
        rw [hc, mul_left_comm]
  · intro p a qq
    cases hx : _compute_rdp_randomized_response p a with
    | error e => simp [compute_rdp_randomized_response, hx, Except.map]
    | ok v =>
      simp only [compute_rdp_randomized_response, hx, Except.map, Except.ok.injEq]
      push_cast
      ring
  · intro p a qq
    cases hx : _compute_rdp_randomized_response p a with
    | error e => simp [compute_rdp_randomized_response, hx, Except.map]
    | ok v =>
      simp only [compute_rdp_randomized_response, hx, Except.map, Except.ok.injEq]
      push_cast
      ring

/-- Witness for C4 at `n = 1`, `q = 1/2`, `sigma = 1`, order `2`. -/
theorem C4_steps_linearity_witness :
    (0 < 1)
    ∧ compute_rdp 1 (1 / 2) 1 1 ((2 : ℝ) : EReal)
      = (compute_rdp 1 (1 / 2) 1 1 ((2 : ℝ) : EReal)).map
          (Except.map (fun r => (((((1 : ℕ) : ℝ))) : EReal) * r)) :=
  ⟨Nat.one_pos, (C4_steps_linearity 1 (1 / 2) 1 ((2 : ℝ) : EReal) 1 Nat.one_pos).1⟩

/-- The loop of the fractional-order path, run with enough fuel, stops at
the first index satisfying the convergence criterion and returns exactly
the accumulation of the terms up to and including that index. -/
theorem fracIter_eq_seg (coef s0 s1 : ℕ → ℝ) :
    ∀ (k i : ℕ) (acc : EReal × EReal) (fuel : ℕ), k < fuel →
      max (s0 (i + k)) (s1 (i + k)) < -30 →
      (∀ m, m < k → ¬ max (s0 (i + m)) (s1 (i + m)) < -30) →
      fracIter coef s0 s1 fuel i acc = some (fracSeg coef s0 s1 i k acc) := by
  intro k
  induction k with
  | zero =>
    intro i acc fuel hfuel hstop _
    obtain ⟨f, rfl⟩ : ∃ f, fuel = f + 1 := ⟨fuel - 1, by omega⟩
    have hstop2 : max (s0 i) (s1 i) < -30 := by simpa using hstop
    simp only [fracIter, fracSeg]
    cases hb : fracBody coef s0 s1 i acc with
    | error e => rfl
    | ok acc2 =>
      dsimp only
      rw [if_pos hstop2]
  | succ k ih =>
    intro i acc fuel hfuel hstop hmin
    obtain ⟨f, rfl⟩ : ∃ f, fuel = f + 1 := ⟨fuel - 1, by omega⟩
    have hnot : ¬ max (s0 i) (s1 i) < -30 := by simpa using hmin 0 (Nat.succ_pos k)
    simp only [fracIter, fracSeg]
    cases hb : fracBody coef s0 s1 i acc with
    | error e => rfl
    | ok acc2 =>
      dsimp only
      rw [if_neg hnot]
      have hstop2 : max (s0 ((i + 1) + k)) (s1 ((i + 1) + k)) < -30 := by
        have harith : (i + 1) + k = i + (k + 1) := by omega
        rw [harith]
        exact hstop
      have hmin2 : ∀ m, m < k → ¬ max (s0 ((i + 1) + m)) (s1 ((i + 1) + m)) < -30 := by
        intro m hm
        have harith : (i + 1) + m = i + (m + 1) := by omega
        rw [harith]
        exact hmin (m + 1) (by omega)
      exact ih (i + 1) acc2 f (by omega) hstop2 hmin2

/-- C2: in the fractional-order path, the accumulators start at
`-infinity` and are updated with `log_add` when the generalized binomial
coefficient is positive and `log_sub` when it is negative; the
convergence criterion `max(log_s0, log_s1) < -30` is checked only after
accumulating, so the `i = 0` term is always accumulated; the loop exits
exactly at the first index where it holds, terminating whenever some term
falls below `-30`; and the function returns
`log_add(log_a0, log_a1) / (alpha - 1)` on the loop result. -/
theorem C2_frac_loop (coef s0 s1 : ℕ → ℝ)
    (h : ∃ n, max (s0 n) (s1 n) < -30) :
    (∀ fuel, Nat.find h < fuel →
      fracIter coef s0 s1 fuel 0 (⊥, ⊥)
        = some (fracSeg coef s0 s1 0 (Nat.find h) (⊥, ⊥)))
    ∧ max (s0 (Nat.find h)) (s1 (Nat.find h)) < -30
    ∧ (∀ m, m < Nat.find h → ¬ max (s0 m) (s1 m) < -30)
    ∧ (∀ i acc, 0 < coef i →
        fracBody coef s0 s1 i acc
          = .ok (log_add acc.1 ((s0 i : ℝ) : EReal), log_add acc.2 ((s1 i : ℝ) : EReal)))
    ∧ (∀ (i : ℕ) (acc : EReal × EReal) (a0 a1 : EReal), coef i < 0 →
        log_sub acc.1 ((s0 i : ℝ) : EReal) = .ok a0 →
        log_sub acc.2 ((s1 i : ℝ) : EReal) = .ok a1 →
        fracBody coef s0 s1 i acc = .ok (a0, a1))
    ∧ (∀ (q sigma alpha : ℝ) (fuel : ℕ), _compute_log_a_for_frac_alpha fuel q sigma alpha
        = (fracIter (fun i => genBinom alpha i) (log_s0 q sigma alpha) (log_s1 q sigma alpha)
            fuel 0 (⊥, ⊥)).map
          (fun r => r.bind (fun acc => pydivE (log_add acc.1 acc.2) (alpha - 1)))) := by
  refine ⟨?_, Nat.find_spec h, fun m hm => Nat.find_min h hm, ?_, ?_,
    fun q sigma alpha fuel => rfl⟩
  · intro fuel hfuel
    exact fracIter_eq_seg coef s0 s1 (Nat.find h) 0 (⊥, ⊥) fuel hfuel
      (by simpa using Nat.find_spec h)
      (fun m hm => by simpa using Nat.find_min h hm)
  · intro i acc hc
    simp only [fracBody, if_pos hc]
  · intro i acc a0 a1 hc h0 h1
    simp only [fracBody, if_neg (not_lt.mpr hc.le), h0, h1]

/-- Witness for C2: constant term sequences below the threshold make the
loop stop right after the always-accumulated first term. -/
theorem C2_frac_loop_witness :
    (∃ n : ℕ, max ((fun _ : ℕ => (-31 : ℝ)) n) ((fun _ : ℕ => (-31 : ℝ)) n) < -30)
    ∧ fracIter (fun _ : ℕ => (1 : ℝ)) (fun _ : ℕ => (-31 : ℝ)) (fun _ : ℕ => (-31 : ℝ))
        1 0 (⊥, ⊥)
      = some (fracSeg (fun _ : ℕ => (1 : ℝ)) (fun _ : ℕ => (-31 : ℝ)) (fun _ : ℕ => (-31 : ℝ))
          0 0 (⊥, ⊥)) := by
  have h : ∃ n : ℕ, max ((fun _ : ℕ => (-31 : ℝ)) n) ((fun _ : ℕ => (-31 : ℝ)) n) < -30 :=
    ⟨0, by norm_num⟩
  have hfind : Nat.find h = 0 := (Nat.find_eq_zero h).mpr (by norm_num)
  refine ⟨h, ?_⟩
  have hmain := (C2_frac_loop (fun _ : ℕ => (1 : ℝ)) (fun _ : ℕ => (-31 : ℝ))
    (fun _ : ℕ => (-31 : ℝ)) h).1 1 (by rw [hfind]; exact Nat.zero_lt_one)
  rwa [hfind] at hmain

/-- Closed-form evaluation of the randomized-response core on a flip
probability strictly inside `(0, 1)` and an order different from `1`. -/
theorem rr_eval (p alpha : ℝ) (hp0 : 0 < p) (hp2 : 0 < 1 - p) (ha : alpha ≠ 1) :
    _compute_rdp_randomized_response p alpha
      = .ok (Real.log (p ^ alpha * (1 - p) ^ (1 - alpha) + (1 - p) ^ alpha * p ^ (1 - alpha))
          / (alpha - 1)) := by
  have c1 : ¬(p = 0 ∧ alpha < 0) := fun h => absurd h.1 (ne_of_gt hp0)
  have c2 : ¬((1 : ℝ) - p = 0 ∧ 1 - alpha < 0) := fun h => absurd h.1 (ne_of_gt hp2)
  have c3 : ¬((1 : ℝ) - p = 0 ∧ alpha < 0) := fun h => absurd h.1 (ne_of_gt hp2)
  have c4 : ¬(p = 0 ∧ 1 - alpha < 0) := fun h => absurd h.1 (ne_of_gt hp0)
  have hsum : ¬(p ^ alpha * (1 - p) ^ (1 - alpha) + (1 - p) ^ alpha * p ^ (1 - alpha) ≤ 0) := by
    push_neg
    have t1 : (0 : ℝ) < p ^ alpha := Real.rpow_pos_of_pos hp0 alpha
    have t2 : (0 : ℝ) < (1 - p) ^ (1 - alpha) := Real.rpow_pos_of_pos hp2 (1 - alpha)
    have t3 : (0 : ℝ) < (1 - p) ^ alpha := Real.rpow_pos_of_pos hp2 alpha
    have t4 : (0 : ℝ) < p ^ (1 - alpha) := Real.rpow_pos_of_pos hp0 (1 - alpha)
    positivity
  have hden : alpha - 1 ≠ 0 := sub_ne_zero.mpr ha
  simp only [_compute_rdp_randomized_response, pypow, pylog, pydiv, if_neg c1, if_neg c2,
    if_neg c3, if_neg c4, if_neg hsum, if_neg hden, Except.bind]

/-- At order exactly `1`, the randomized-response core reaches the final
division by `alpha - 1 = 0` and raises `ZeroDivisionError`. -/
theorem rr_order_one (p : ℝ) (hp0 : 0 < p) (hp2 : 0 < 1 - p) :
    _compute_rdp_randomized_response p 1 = .error "ZeroDivisionError" := by
  have c1 : ¬(p = 0 ∧ (1 : ℝ) < 0) := fun h => absurd h.2 (by norm_num)
  have c2 : ¬((1 : ℝ) - p = 0 ∧ (1 : ℝ) - 1 < 0) := fun h => absurd h.2 (by norm_num)
  have c3 : ¬((1 : ℝ) - p = 0 ∧ (1 : ℝ) < 0) := fun h => absurd h.2 (by norm_num)
  have c4 : ¬(p = 0 ∧ (1 : ℝ) - 1 < 0) := fun h => absurd h.2 (by norm_num)
  have hsum : p ^ (1 : ℝ) * (1 - p) ^ ((1 : ℝ) - 1) + (1 - p) ^ (1 : ℝ) * p ^ ((1 : ℝ) - 1)
      = 1 := by
    rw [show ((1 : ℝ) - 1) = 0 by norm_num, Real.rpow_zero, Real.rpow_zero, Real.rpow_one,
      Real.rpow_one]
    ring
  have hlog : ¬(p ^ (1 : ℝ) * (1 - p) ^ ((1 : ℝ) - 1) + (1 - p) ^ (1 : ℝ) * p ^ ((1 : ℝ) - 1)
      ≤ 0) := by
    rw [hsum]
    norm_num
  simp only [_compute_rdp_randomized_response, pypow, pylog, pydiv, if_neg c1, if_neg c2,
    if_neg c3, if_neg c4, if_neg hlog, Except.bind]
  rw [if_pos (by norm_num : (1 : ℝ) - 1 = 0)]

/-- At order exactly `1`, `_compute_rdp` dispatches to the integer-order
path, whose final normalization divides by `alpha - 1 = 0` and raises
`ZeroDivisionError`. -/
theorem gauss_order_one (fuel : ℕ) (q sigma : ℝ)
    (h0 : q ≠ 0) (hs : sigma ≠ 0) (h1 : q ≠ 1) :
    _compute_rdp fuel q sigma ((1 : ℝ) : EReal) = some (.error "ZeroDivisionError") := by
  have hor : ¬(((1 : ℝ) : EReal) = ⊤ ∨ ((1 : ℝ) : EReal) = ⊥) :=
    not_or.mpr ⟨EReal.coe_ne_top 1, EReal.coe_ne_bot 1⟩
  have hint : ∃ n : ℤ, ((1 : ℝ) : EReal) = ((n : ℝ) : EReal) := ⟨1, by norm_num⟩
  simp only [_compute_rdp]
  rw [if_neg h0, if_neg hs, if_neg h1, if_neg hor, if_pos hint]
  have hfloor : ⌊(((1 : ℝ) : EReal)).toReal⌋ = 1 := by
    rw [EReal.toReal_coe]
    exact Int.floor_one
  rw [hfloor]
  simp only [_compute_log_a_for_int_alpha, pydivE]
  rw [if_pos (by norm_num : ((1 : ℤ) : ℝ) - 1 = 0)]

/-- C9 counterexample: the implementation does not reject `order == 1`; at
order `1` the division by zero in the final normalization propagates as a
`ZeroDivisionError`, both in the integer Gaussian path and in the
randomized-response formula. -/
theorem C9_order_one_counterexample :
    _compute_rdp 1 (1 / 2) 1 ((1 : ℝ) : EReal) = some (.error "ZeroDivisionError")
    ∧ compute_rdp_randomized_response (1 / 2) 1 1 1 = .error "ZeroDivisionError" := by
  constructor
  · exact gauss_order_one 1 (1 / 2) 1 (by norm_num) (by norm_num) (by norm_num)
  · simp only [compute_rdp_randomized_response,
      rr_order_one (1 / 2) (by norm_num) (by norm_num), Except.map]

/-- C9 amended: the implementation performs no input validation of
`order == 1`; whenever that order is evaluated outside the `q == 0`,
`sigma == 0` and `q == 1` shortcuts the integer Gaussian path raises
`ZeroDivisionError` from its final normalization, and so does the
randomized-response formula for any flip probability inside `(0, 1)`
(the fractional path cannot be reached at order `1`). -/
theorem C9_order_one_amended (fuel : ℕ) (q sigma : ℝ)
    (h0 : q ≠ 0) (hs : sigma ≠ 0) (h1 : q ≠ 1) :
    _compute_rdp fuel q sigma ((1 : ℝ) : EReal) = some (.error "ZeroDivisionError")
    ∧ (∀ (p qq : ℝ) (steps : ℕ), 0 < p → p < 1 →
        compute_rdp_randomized_response p steps 1 qq = .error "ZeroDivisionError") := by
  refine ⟨gauss_order_one fuel q sigma h0 hs h1, ?_⟩
  intro p qq steps hp0 hp1
  simp only [compute_rdp_randomized_response,
    rr_order_one p hp0 (by linarith), Except.map]

/-- Witness for the amended C9 at `q = 1/2`, `sigma = 1`. -/
theorem C9_order_one_amended_witness :
    ((1 / 2 : ℝ) ≠ 0) ∧ ((1 : ℝ) ≠ 0) ∧ ((1 / 2 : ℝ) ≠ 1)
    ∧ _compute_rdp 2 (1 / 2) 1 ((1 : ℝ) : EReal) = some (.error "ZeroDivisionError") :=
  ⟨by norm_num, by norm_num, by norm_num,
    (C9_order_one_amended 2 (1 / 2) 1 (by norm_num) (by norm_num) (by norm_num)).1⟩

/-- C8: the randomized-response accountant returns, per order,
`q * steps * log(p^alpha (1-p)^(1-alpha) + (1-p)^alpha p^(1-alpha)) / (alpha - 1)`
(note the extra factor `q`), and returns `0` at `p = 1/2`. -/
theorem C8_randomized_response (p : ℝ) (steps : ℕ) (alpha q : ℝ)
    (hp0 : 0 < p) (hp1 : p < 1) (ha : 1 < alpha) :
    compute_rdp_randomized_response p steps alpha q
      = .ok (q * ((steps : ℝ))
          * (Real.log (p ^ alpha * (1 - p) ^ (1 - alpha) + (1 - p) ^ alpha * p ^ (1 - alpha))
              / (alpha - 1)))
    ∧ compute_rdp_randomized_response (1 / 2) steps alpha q = .ok 0 := by
  constructor
  · rw [compute_rdp_randomized_response,
      rr_eval p alpha hp0 (by linarith) (ne_of_gt ha)]
    simp only [Except.map, Except.ok.injEq]
    ring
  · rw [compute_rdp_randomized_response,
      rr_eval (1 / 2) alpha (by norm_num) (by norm_num) (ne_of_gt ha)]
    have hhalf : ((1 : ℝ) / 2) ^ alpha * (1 - 1 / 2) ^ (1 - alpha)
        + (1 - 1 / 2) ^ alpha * (1 / 2) ^ (1 - alpha) = 1 := by
      rw [show ((1 : ℝ) - 1 / 2) = 1 / 2 by norm_num]
      rw [← Real.rpow_add (by norm_num : (0 : ℝ) < 1 / 2)]
      rw [show alpha + (1 - alpha) = 1 by ring, Real.rpow_one]
      norm_num
    rw [hhalf]
    simp only [Real.log_one, zero_div, Except.map, Except.ok.injEq]
    ring

/-- Witness for C8 at `p = 1/4`, `steps = 1`, order `2`, `q = 1`. -/
theorem C8_randomized_response_witness :
    ((0 : ℝ) < 1 / 4) ∧ ((1 / 4 : ℝ) < 1) ∧ ((1 : ℝ) < 2)
    ∧ compute_rdp_randomized_response (1 / 2) 1 2 1 = .ok 0 :=
  ⟨by norm_num, by norm_num, by norm_num,
    (C8_randomized_response (1 / 4) 1 2 1 (by norm_num) (by norm_num) (by norm_num)).2⟩

/-- C10: at `p = 0` or `p = 1` the randomized-response computation raises
`ZeroDivisionError` (zero raised to the negative power `1 - alpha`), while
it is total for every `p` strictly inside `(0, 1)`. -/
theorem C10_rr_boundary (alpha : ℝ) (ha : 1 < alpha) :
    _compute_rdp_randomized_response 0 alpha = .error "ZeroDivisionError"
    ∧ _compute_rdp_randomized_response 1 alpha = .error "ZeroDivisionError"
    ∧ (∀ p : ℝ, 0 < p → p < 1 → ∃ r : ℝ, _compute_rdp_randomized_response p alpha = .ok r) := by
  have haneg : (1 : ℝ) - alpha < 0 := by linarith
  refine ⟨?_, ?_, ?_⟩
  · have c1 : ¬((0 : ℝ) = 0 ∧ alpha < 0) := fun h => absurd h.2 (by linarith)
    have c2 : ¬((1 : ℝ) - 0 = 0 ∧ 1 - alpha < 0) := fun h => by norm_num at h
    have c3 : ¬((1 : ℝ) - 0 = 0 ∧ alpha < 0) := fun h => by norm_num at h
    have c4 : ((0 : ℝ) = 0 ∧ 1 - alpha < 0) := ⟨rfl, haneg⟩
    have e1 : pypow 0 alpha = .ok ((0 : ℝ) ^ alpha) := by
      unfold pypow
      rw [if_neg c1]
    have e2 : pypow (1 - 0) (1 - alpha) = .ok (((1 : ℝ) - 0) ^ (1 - alpha)) := by
      unfold pypow
      rw [if_neg c2]
    have e3 : pypow (1 - 0) alpha = .ok (((1 : ℝ) - 0) ^ alpha) := by
      unfold pypow
      rw [if_neg c3]
    have e4 : pypow 0 (1 - alpha) = (.error "ZeroDivisionError" : Except String ℝ) := by
      unfold pypow
      rw [if_pos c4]
    simp only [_compute_rdp_randomized_response]
    rw [e1, e2, e3, e4]
    rfl
  · have d1 : ¬((1 : ℝ) = 0 ∧ alpha < 0) := fun h => by norm_num at h
    have d2 : ((1 : ℝ) - 1 = 0 ∧ 1 - alpha < 0) := ⟨by norm_num, haneg⟩
    have f1 : pypow 1 alpha = .ok ((1 : ℝ) ^ alpha) := by
      unfold pypow
      rw [if_neg d1]
    have f2 : pypow (1 - 1) (1 - alpha) = (.error "ZeroDivisionError" : Except String ℝ) := by
      unfold pypow
      rw [if_pos d2]
    simp only [_compute_rdp_randomized_response]
    rw [f1, f2]
    rfl
  · intro p hp0 hp1
    exact ⟨_, rr_eval p alpha hp0 (by linarith) (ne_of_gt ha)⟩

/-- Witness for C10 at order `2`. -/
theorem C10_rr_boundary_witness :
    ((1 : ℝ) < 2) ∧ _compute_rdp_randomized_response 0 2 = .error "ZeroDivisionError" :=
  ⟨by norm_num, (C10_rr_boundary 2 (by norm_num)).1⟩
